import Mathlib

/-!
Verification of the live round lifecycle and scoring engine of the QuizKyot
trivia backend (src/server.js).

Embedding conventions:
* JS objects keyed by numeric database user ids (`answers`, `userScores`)
  become association lists `List (ℕ × _)` in iteration order.
* JS numbers carrying time margins become rationals (`ℚ`), so that JS
  `Math.floor` is `Int.floor`.
* The stateful socket/HTTP handlers become pure state-transition functions
  that additionally return the broadcast events and the durable-store
  operations they would perform.  Durable-store failures are modelled by an
  explicit failure parameter; `console.*` logging is not an observable
  output of the model.
-/

namespace QuizKyot

/-- An entry of the open round's `answers` object
(`currentQuizSession.currentQuestion.answers[dbUserId]` in the
`submit-answer` handler of src/server.js): the selected option (−1 is the
no-answer sentinel), the response margin (`responseTime`, the remaining
time used directly as the point value), and the submitting identity's
Twitch key and display name at submission time. -/
structure Answer where
  selectedOption : ℤ
  responseTime : ℚ
  twitchUserId : String
  displayName : String
deriving DecidableEq

/-- One element of the array returned by `calculateRoundResults`
(src/server.js lines 519-547). -/
structure RoundResult where
  userId : ℕ
  twitchUserId : String
  displayName : String
  points : ℤ
deriving DecidableEq

/-- `obj[u]` on a JS object modelled as an association list. -/
def lookupKey {α : Type} : List (ℕ × α) → ℕ → Option α
  | [], _ => none
  | (k, v) :: rest, u => if k = u then some v else lookupKey rest u

/-- `obj[u] = v` on a JS object modelled as an association list: replace the
value in place if the key is present, otherwise add the key.  (No settled
claim depends on the iteration order of the object; in JS an integer-like
key iterates in ascending numeric order.) -/
def setKey {α : Type} : List (ℕ × α) → ℕ → α → List (ℕ × α)
  | [], u, v => [(u, v)]
  | (k, w) :: rest, u, v =>
    if k = u then (u, v) :: rest else (k, w) :: setKey rest u v

/-- `delete obj[u]`: removes the entry with key `u` (the first one, which is
the only one when the keys are distinct, as they are for a JS object). -/
def eraseKey {α : Type} : List (ℕ × α) → ℕ → List (ℕ × α)
  | [], _ => []
  | (k, w) :: rest, u => if k = u then rest else (k, w) :: eraseKey rest u

/-- The point computation inside the `for` loop of `calculateRoundResults`
(src/server.js lines 522-543): the sentinel −1 scores 0; a correct
selection scores the response margin; an incorrect one scores its
negation; the resulting JS number is then passed through `Math.floor`. -/
def pointsFor (correctOption : ℤ) (a : Answer) : ℤ :=
  Int.floor (if a.selectedOption = -1 then (0 : ℚ)
    else if correctOption = a.selectedOption then a.responseTime
    else -a.responseTime)

/-- The unsorted `roundResults` array built by the loop of
`calculateRoundResults`, in the iteration order of the `answers` object. -/
def roundEntries (answers : List (ℕ × Answer)) (correctOption : ℤ) : List RoundResult :=
  answers.map fun p => ⟨p.1, p.2.twitchUserId, p.2.displayName, pointsFor correctOption p.2⟩

/-- The descending-points comparator `(a, b) => b.points - a.points` used by
`calculateRoundResults` to sort the results (src/server.js line 546):
`a` may stay before `b` exactly when the comparator is ≤ 0, i.e. when
`b.points ≤ a.points`. -/
def ptsDesc (x y : RoundResult) : Prop := y.points ≤ x.points

instance : DecidableRel ptsDesc := fun x y => inferInstanceAs (Decidable (y.points ≤ x.points))

instance : IsTotal RoundResult ptsDesc := ⟨fun x y => le_total y.points x.points⟩

instance : IsTrans RoundResult ptsDesc := ⟨fun _ _ _ h1 h2 => le_trans h2 h1⟩

/-- `calculateRoundResults` (src/server.js lines 519-547): builds one result
per entry of the `answers` object and sorts the array descending by
points.  JS `Array.prototype.sort` is specified to be stable, and a stable
sort with respect to a total preorder has a unique result, so the
embedding uses `List.insertionSort`, which is stable. -/
def calculateRoundResults (answers : List (ℕ × Answer)) (correctOption : ℤ) : List RoundResult :=
  List.insertionSort ptsDesc (roundEntries answers correctOption)

/-- **C1** For every answer in the round's answer map, `calculateRoundResults`
assigns points as follows: the no-answer sentinel (−1) scores 0; a
selection equal to the correct option scores the submitted response
margin; any other selection scores the negation of the response margin;
and in every case the value is floored to an integer.  Stated as: the
result list is a permutation of the list that maps each answer entry to
exactly that record, and the concrete spec examples (correct margin 700 →
+700, incorrect margin 300 → −300, sentinel → 0) evaluate as claimed. -/
theorem calculateRoundResults_points_spec :
    (∀ (answers : List (ℕ × Answer)) (co : ℤ),
      List.Perm (calculateRoundResults answers co)
        (answers.map fun p =>
          (⟨p.1, p.2.twitchUserId, p.2.displayName,
            Int.floor (if p.2.selectedOption = -1 then (0 : ℚ)
              else if p.2.selectedOption = co then p.2.responseTime
              else -p.2.responseTime)⟩ : RoundResult)))
    ∧ pointsFor 2 ⟨2, 700, "a", "A"⟩ = 700
    ∧ pointsFor 2 ⟨1, 300, "b", "B"⟩ = -300
    ∧ pointsFor 2 ⟨-1, 999, "c", "C"⟩ = 0 := by
  refine ⟨fun answers co => ?_, by norm_num [pointsFor], by norm_num [pointsFor],
    by norm_num [pointsFor]⟩
  have hmap : roundEntries answers co =
      answers.map fun p =>
        (⟨p.1, p.2.twitchUserId, p.2.displayName,
          Int.floor (if p.2.selectedOption = -1 then (0 : ℚ)
            else if p.2.selectedOption = co then p.2.responseTime
            else -p.2.responseTime)⟩ : RoundResult) := by
    unfold roundEntries pointsFor
    refine List.map_congr_left fun p _ => ?_
    congr 2
    exact if_congr Iff.rfl rfl (if_congr eq_comm rfl rfl)
  rw [calculateRoundResults, ← hmap]
  exact List.perm_insertionSort ptsDesc _

/-- Entries strictly above `a` in the descending order are filtered away by
the points-equality predicate when `a` itself has the filtered value. -/
theorem filter_takeWhile_ptsDesc_eq_nil (v : ℤ) (a : RoundResult) (l : List RoundResult)
    (hv : a.points = v) :
    (l.takeWhile fun b => decide ¬ptsDesc a b).filter (fun x => decide (x.points = v)) = [] := by
  rw [List.filter_eq_nil_iff]
  intro b hb
  have hq := List.mem_takeWhile_imp hb
  simp only [decide_eq_true_eq, ptsDesc] at hq
  simp only [decide_eq_true_eq]
  intro hbv
  exact hq (le_of_eq (hbv.trans hv.symm))

/-- Filtering the entries with a fixed point value commutes with a single
ordered insertion for the descending comparator. -/
theorem filter_orderedInsert_ptsDesc (v : ℤ) (a : RoundResult) (l : List RoundResult) :
    (List.orderedInsert ptsDesc a l).filter (fun x => decide (x.points = v)) =
      if a.points = v then a :: l.filter (fun x => decide (x.points = v))
      else l.filter (fun x => decide (x.points = v)) := by
  rw [List.orderedInsert_eq_take_drop, List.filter_append]
  have hsplit : l.filter (fun x => decide (x.points = v)) =
      (l.takeWhile fun b => decide ¬ptsDesc a b).filter (fun x => decide (x.points = v)) ++
        (l.dropWhile fun b => decide ¬ptsDesc a b).filter (fun x => decide (x.points = v)) := by
    rw [← List.filter_append, List.takeWhile_append_dropWhile]
  by_cases hv : a.points = v
  · rw [if_pos hv, List.filter_cons, if_pos (by simpa using hv),
      filter_takeWhile_ptsDesc_eq_nil v a l hv, hsplit,
      filter_takeWhile_ptsDesc_eq_nil v a l hv]
    simp
  · rw [if_neg hv, List.filter_cons, if_neg (by simpa using hv), hsplit]

/-- Stability of the embedded sort: for each point value, the entries
carrying that value appear in the sorted leaderboard in exactly their
original order. -/
theorem filter_insertionSort_ptsDesc (v : ℤ) :
    ∀ l : List RoundResult,
      (List.insertionSort ptsDesc l).filter (fun x => decide (x.points = v)) =
        l.filter (fun x => decide (x.points = v))
  | [] => rfl
  | a :: l => by
    rw [List.insertionSort, filter_orderedInsert_ptsDesc, List.filter_cons]
    by_cases hv : a.points = v
    · rw [if_pos hv, if_pos (by simpa using hv), filter_insertionSort_ptsDesc v l]
    · rw [if_neg hv, if_neg (by simpa using hv), filter_insertionSort_ptsDesc v l]

/-- **C7** The leaderboard returned by `calculateRoundResults` is sorted in
descending order of points, and entries with equal points keep their
original iteration order from the answer map (the sort is stable, with no
secondary key): filtering the leaderboard to any fixed point value yields
exactly the corresponding subsequence of the unsorted per-answer results
in their original order. -/
theorem calculateRoundResults_sorted_stable (answers : List (ℕ × Answer)) (co : ℤ) :
    (calculateRoundResults answers co).Sorted (fun x y => y.points ≤ x.points)
    ∧ ∀ v : ℤ, (calculateRoundResults answers co).filter (fun x => decide (x.points = v)) =
        (roundEntries answers co).filter (fun x => decide (x.points = v)) := by
  constructor
  · exact List.sorted_insertionSort ptsDesc (roundEntries answers co)
  · intro v
    exact filter_insertionSort_ptsDesc v (roundEntries answers co)

/-- The `optionVoteCounts` object built at round end and on live updates
(src/server.js lines 562-571 and 916-922): one bucket per option index
0-3 plus the no-answer bucket. -/
structure VoteCounts where
  c0 : ℕ
  c1 : ℕ
  c2 : ℕ
  c3 : ℕ
  cNone : ℕ
deriving DecidableEq

/-- One step of the vote-counting loop: an option outside the five known
buckets is only logged and never counted (src/server.js lines 565-570). -/
def voteBump (vc : VoteCounts) (so : ℤ) : VoteCounts :=
  if so = 0 then { vc with c0 := vc.c0 + 1 }
  else if so = 1 then { vc with c1 := vc.c1 + 1 }
  else if so = 2 then { vc with c2 := vc.c2 + 1 }
  else if so = 3 then { vc with c3 := vc.c3 + 1 }
  else if so = -1 then { vc with cNone := vc.cNone + 1 }
  else vc

/-- The vote tally over the round's answer map. -/
def voteCounts (answers : List (ℕ × Answer)) : VoteCounts :=
  answers.foldl (fun vc p => voteBump vc p.2.selectedOption) ⟨0, 0, 0, 0, 0⟩

/-- An entry of `currentQuizSession.userScores` (cumulative score for the
running quiz instance, src/server.js lines 583-590). -/
structure Score where
  score : ℤ
  twitchUserId : String
  displayName : String
deriving DecidableEq

/-- The open round: `currentQuizSession.currentQuestion` with the fields the
`next-question` endpoint attaches to it (src/server.js lines 425-429). -/
structure Round where
  qid : ℕ
  correctOption : ℤ
  timeLimit : ℕ
  answers : List (ℕ × Answer)
  receivedAnswerCount : ℕ
  expectedAnswerCount : ℕ
deriving DecidableEq

/-- `currentQuizSession` (src/server.js lines 120-127): the process-wide
live-game state.  `timerArmed` models whether `submissionWindowTimeout`
holds a pending timer. -/
structure Session where
  quizId : Option ℕ
  quizInstanceId : Option ℕ
  questionIndex : ℕ
  userScores : List (ℕ × Score)
  currentQuestion : Option Round
  timerArmed : Bool
deriving DecidableEq

/-- One row of the `INSERT INTO responses(...)` statement executed at round
end (src/server.js lines 592-606). -/
structure ResponseRow where
  quizInstanceId : Option ℕ
  quizId : ℕ
  questionId : ℕ
  userId : ℕ
  selectedOption : ℤ
  responseTimeMs : ℤ
  score : ℤ
  isCorrect : Bool
deriving DecidableEq

/-- Durable-store writes other than response inserts that the handlers can
perform. -/
inductive DbOp where
  | relinkResponses (fromUser toUser : ℕ)
  | deleteUser (u : ℕ)
  | setInstanceEndTime (inst : ℕ)
deriving DecidableEq

/-- The socket.io broadcasts emitted by the live-game handlers (payload
shapes from src/server.js; `console.*` logging is not an event). -/
inductive Event where
  | quizReady (quizId : ℕ)
  | startQuestion (quizId qid timeLimit : ℕ)
  | startQuestionControlPanel (quizId qid timeLimit : ℕ) (correctOption : ℤ)
  | liveRoundUpdate (results : List RoundResult) (votes : VoteCounts)
  | roundEnd (results : List RoundResult) (scores : List (ℕ × Score)) (correctOption : ℤ)
      (votes : VoteCounts)
  | showFinalResults (finalScores : List (ℕ × Score))
  | quizEnd (finalScores : List (ℕ × Score)) (manualStop : Bool)
deriving DecidableEq

/-- The in-memory cumulative score update performed for one result inside
the round-end loop (src/server.js lines 582-590): create the entry with
score 0 if absent, then add the round points. -/
def bumpScore (scores : List (ℕ × Score)) (r : RoundResult) : List (ℕ × Score) :=
  let base := match lookupKey scores r.userId with
    | some _ => scores
    | none => setKey scores r.userId ⟨0, r.twitchUserId, r.displayName⟩
  match lookupKey base r.userId with
  | some sc => setKey base r.userId { sc with score := sc.score + r.points }
  | none => base

/-- The response row built for one result (src/server.js lines 592-606):
`response_time_ms` is `Math.floor(Number(answer.responseTime) * 1000)` and
`is_correct` is the boolean `result.points > 0`. -/
def mkRow (instId : Option ℕ) (qz qid : ℕ) (r : RoundResult) (a : Answer) : ResponseRow :=
  ⟨instId, qz, qid, r.userId, a.selectedOption, Int.floor (a.responseTime * 1000), r.points,
    decide (0 < r.points)⟩

/-- The `for (const result of finalRoundResults)` loop of `endRound`
(src/server.js lines 578-607), with an explicit failure model: `dbFail =
some k` makes the insert of the `k`-th processed result throw, which
aborts the loop after that iteration's in-memory score update (the update
precedes the insert in the source).  Returns the updated score map, the
rows handed to the transaction, and whether the transaction failed. -/
def endRoundLoop (answers : List (ℕ × Answer)) (dbFail : Option ℕ) (instId : Option ℕ)
    (qz qid : ℕ) :
    List RoundResult → ℕ → List (ℕ × Score) → List (ℕ × Score) × List ResponseRow × Bool
  | [], _, scores => (scores, [], false)
  | r :: rest, idx, scores =>
    match lookupKey answers r.userId with
    | none => endRoundLoop answers dbFail instId qz qid rest (idx + 1) scores
    | some a =>
      let scores' := bumpScore scores r
      if dbFail = some idx then (scores', [], true)
      else
        let out := endRoundLoop answers dbFail instId qz qid rest (idx + 1) scores'
        (out.1, mkRow instId qz qid r a :: out.2.1, out.2.2)

/-- The outcome of `endRound`: the new session state, the emitted
broadcasts, the response rows the durable transaction committed (empty
when it rolled back), and whether the transaction failed (observable in
the source only as a `console.error`). -/
structure EndRoundOut where
  state : Session
  events : List Event
  rows : List ResponseRow
  failed : Bool
deriving DecidableEq

/-- `endRound` (src/server.js lines 549-629).  Guard: returns immediately
when no quiz or no question is active.  Otherwise computes the round
results, tallies votes, runs the persistence loop inside one transaction
(`ROLLBACK` discards every row on failure), then — on success and failure
alike — emits the `round-end` broadcast with the (possibly partially)
updated cumulative scores, clears `currentQuestion` and clears the
submission-window timer. -/
def endRound (dbFail : Option ℕ) (s : Session) : EndRoundOut :=
  match s.quizId, s.currentQuestion with
  | some qz, some r =>
    let results := calculateRoundResults r.answers r.correctOption
    let votes := voteCounts r.answers
    let out := endRoundLoop r.answers dbFail s.quizInstanceId qz r.qid results 0 s.userScores
    { state := { s with userScores := out.1, currentQuestion := none, timerArmed := false },
      events := [Event.roundEnd results out.1 r.correctOption votes],
      rows := if out.2.2 then [] else out.2.1,
      failed := out.2.2 }
  | _, _ => ⟨s, [], [], false⟩

/-- The outcome of one `submit-answer` event for an already-resolved
identity. -/
structure SubmitOut where
  state : Session
  accepted : Bool
  events : List Event
deriving DecidableEq

/-- The validation/record core of the `submit-answer` handler
(src/server.js lines 829-940), projected onto a submission whose identity
has already been resolved to the database user id `uid` (the identity
resolution and merge portion of the handler, lines 840-892, is modelled
separately by `submitMergeStep`).  In source order: a zero response margin
or the −1 sentinel is dropped; then a missing quiz, a missing open
question, or a question-id mismatch is dropped; then a duplicate answer
for `uid` is dropped; otherwise the answer is stored, the received count
incremented, and a live update is sent to the control panel if one is
registered. -/
def submitAnswer (controlPanel : Bool) (qid uid : ℕ) (selectedOption : ℤ) (responseTime : ℚ)
    (twitchUserId displayName : String) (s : Session) : SubmitOut :=
  if responseTime = 0 ∨ selectedOption = -1 then ⟨s, false, []⟩
  else
    match s.quizId, s.currentQuestion with
    | some _, some r =>
      if r.qid ≠ qid then ⟨s, false, []⟩
      else
        match lookupKey r.answers uid with
        | some _ => ⟨s, false, []⟩
        | none =>
          let a : Answer := ⟨selectedOption, responseTime, twitchUserId, displayName⟩
          let r' := { r with answers := setKey r.answers uid a,
                             receivedAnswerCount := r.receivedAnswerCount + 1 }
          let evs := if controlPanel then
              [Event.liveRoundUpdate (calculateRoundResults r'.answers r'.correctOption)
                (voteCounts r'.answers)]
            else []
          ⟨{ s with currentQuestion := some r' }, true, evs⟩
    | _, _ => ⟨s, false, []⟩

/-- `mergeUsers` (src/server.js lines 702-717): relinks the anonymous
identity's responses to the authenticated identity and deletes the
anonymous user row inside one transaction.  On failure the transaction is
rolled back (no operation is applied) and the error is caught and only
logged: the function returns normally either way and surfaces no error to
its caller. -/
def mergeUsers (dbFail : Bool) (anonId authId : ℕ) : List DbOp :=
  if dbFail then [] else [DbOp.relinkResponses anonId authId, DbOp.deleteUser anonId]

/-- `mergeInMemoryData` (src/server.js lines 719-756).  `newDisplayName` is
the authenticated display name fetched from the users table (`none` when
the query fails or returns nothing).  Moves the anonymous identity's
cumulative score onto the authenticated identity (creating its entry with
score 0 first if absent), refreshes the display name, deletes the
anonymous score entry, and relinks the anonymous identity's answer in the
open round (overwriting any answer the authenticated identity already
had) without touching the received-answer count. -/
def mergeInMemoryData (newDisplayName : Option String) (anonId authId : ℕ) (s : Session) :
    Session :=
  let scores :=
    match lookupKey s.userScores anonId with
    | none => s.userScores
    | some anonData =>
      let base :=
        match lookupKey s.userScores authId with
        | some _ => s.userScores
        | none => setKey s.userScores authId
            { anonData with
              score := 0
              displayName := newDisplayName.getD anonData.displayName }
      let withAdd :=
        match lookupKey base authId with
        | some authData => setKey base authId
            { authData with score := authData.score + anonData.score }
        | none => base
      let withDn :=
        match newDisplayName with
        | some d =>
          match lookupKey withAdd authId with
          | some ad => setKey withAdd authId { ad with displayName := d }
          | none => withAdd
        | none => withAdd
      eraseKey withDn anonId
  let q :=
    match s.currentQuestion with
    | none => none
    | some r =>
      match lookupKey r.answers anonId with
      | none => some r
      | some aAns =>
        let movedAns : Answer :=
          { aAns with displayName := newDisplayName.getD aAns.displayName }
        some { r with answers := eraseKey (setKey r.answers authId movedAns) anonId }
  { s with userScores := scores, currentQuestion := q }

/-- The anonymous-number allocator state: the module-level
`usedAnonymousNumbers` set and `nextAnonymousNumber` counter
(src/server.js lines 15-16). -/
structure Alloc where
  used : Finset ℕ
  next : ℕ
deriving DecidableEq

/-- A socket's entry in `socketUserMap` (src/server.js line 14). -/
structure SockSession where
  dbUserId : ℕ
  isAnonymous : Bool
  anonymousNumber : Option ℕ
deriving DecidableEq

/-- The number release performed by the disconnect handler for an anonymous
session and by the merge scenario (src/server.js lines 947-950 and
866-868): remove the number from the used set and pull the scan start
back to it. -/
def releaseNumber (al : Alloc) (n : ℕ) : Alloc :=
  ⟨al.used.erase n, min al.next n⟩

/-- `findNextAvailableAnonymousNumber` (src/server.js lines 664-669): the
`while (usedAnonymousNumbers.has(nextAnonymousNumber))` scan.  The loop
terminates because the used set is finite; `fuel = used.card + 1` always
suffices (each step consumes a distinct used number), so the embedding
runs the scan on that fuel. -/
def findNextAvailableAnonymousNumber (used : Finset ℕ) : ℕ → ℕ → ℕ
  | 0, n => n
  | fuel + 1, n =>
    if n ∈ used then findNextAvailableAnonymousNumber used fuel (n + 1) else n

/-- The allocation performed by `createAnonymousUser` for a never-seen
anonymous key (src/server.js lines 683-698): scan for the next free
number and mark it used.  (For a key already present in the users table
the function returns the existing user and does not touch the
allocator.)  The new `next` counter is the allocated number itself: the
source advances the module-level counter inside
`findNextAvailableAnonymousNumber` and never moves it past the number it
just allocated. -/
def createAnonymousUser (al : Alloc) : ℕ × Alloc :=
  let n := findNextAvailableAnonymousNumber al.used (al.used.card + 1) al.next
  (n, ⟨insert n al.used, n⟩)

/-- Display name assigned to a fresh anonymous number
(src/server.js line 684). -/
def anonDisplayName (n : ℕ) : String := "User " ++ toString n

/-- Allocator states reachable from startup (empty used set, counter 1) by
any interleaving of anonymous-user creations and number releases
(disconnect or merge; released numbers were previously allocated, hence
positive). -/
inductive ReachableAlloc : Alloc → Prop where
  | init : ReachableAlloc ⟨∅, 1⟩
  | acquire {a : Alloc} : ReachableAlloc a → ReachableAlloc (createAnonymousUser a).2
  | release {a : Alloc} (n : ℕ) : 1 ≤ n → ReachableAlloc a → ReachableAlloc (releaseNumber a n)

/-- The outcome of the merge scenario inside the `submit-answer` handler. -/
structure MergeStepOut where
  session : Session
  alloc : Alloc
  sock : SockSession
  dbOps : List DbOp
  errorSurfaced : Bool
deriving DecidableEq

/-- The merge scenario of the `submit-answer` handler (src/server.js lines
854-879), entered when a previously anonymous socket session submits with
an authenticated key resolving to `authId`: if the ids differ, run the
durable merge and then — unconditionally, whatever happened durably — the
in-memory merge; release the anonymous number; switch the socket session
to the authenticated identity.  No error is ever surfaced (`mergeUsers`
swallows its failure). -/
def submitMergeStep (dbFail : Bool) (newDisplayName : Option String) (authId : ℕ)
    (s : Session) (al : Alloc) (sk : SockSession) : MergeStepOut :=
  let dbOps := if sk.dbUserId ≠ authId then mergeUsers dbFail sk.dbUserId authId else []
  let s' := if sk.dbUserId ≠ authId then mergeInMemoryData newDisplayName sk.dbUserId authId s
    else s
  let al' := match sk.anonymousNumber with
    | some n => releaseNumber al n
    | none => al
  ⟨s', al', ⟨authId, false, none⟩, dbOps, false⟩

/-- A question row of the ordered list the `next-question` endpoint loads
for the active quiz (src/server.js lines 404-411). -/
structure Question where
  id : ℕ
  correctOption : ℤ
  timeLimit : ℕ
deriving DecidableEq

/-- The outcome of a control-surface HTTP handler: new state, broadcasts,
durable writes, and whether the request succeeded (HTTP 2xx). -/
structure HandlerOut where
  state : Session
  events : List Event
  dbOps : List DbOp
  ok : Bool
deriving DecidableEq

/-- `POST /api/quiz/next-question` (src/server.js lines 397-473).  With no
active quiz: HTTP 400, no effect.  With `questionIndex` past the end of
the ordered question list (`questions[idx]? = none` iff the source's
`questionIndex >= questionsInQuiz.length`): emits `show-final-results`
and returns — the source contains a comment announcing a session reset
here but no code, so the session is left untouched and no durable write
marks the instance end.  Otherwise opens the round for the current
question, broadcasts it (with the correct option only to the control
panel), increments the index and arms the submission-window timer. -/
def nextQuestionHandler (questions : List Question) (participants : ℕ) (controlPanel : Bool)
    (s : Session) : HandlerOut :=
  match s.quizId with
  | none => ⟨s, [], [], false⟩
  | some qz =>
    match questions[s.questionIndex]? with
    | none => ⟨s, [Event.showFinalResults s.userScores], [], true⟩
    | some q =>
      let round : Round := ⟨q.id, q.correctOption, q.timeLimit, [], 0, participants⟩
      let evs := [Event.startQuestion qz q.id q.timeLimit] ++
        (if controlPanel then
          [Event.startQuestionControlPanel qz q.id q.timeLimit q.correctOption]
        else [])
      ⟨{ s with
          currentQuestion := some round
          questionIndex := s.questionIndex + 1
          timerArmed := true }, evs, [], true⟩

/-- `resetQuizSession` (src/server.js lines 475-488): clears the pending
timer and replaces the session with the empty one. -/
def emptySession : Session :=
  ⟨none, none, 0, [], none, false⟩

/-- `POST /api/quiz/deactivate` (src/server.js lines 490-517): with no
active quiz, resets and reports an error; otherwise marks the instance
end time durably, broadcasts `quiz-end` with the final scores, and resets
the in-memory session. -/
def deactivateHandler (s : Session) : HandlerOut :=
  match s.quizId with
  | none => ⟨emptySession, [], [], false⟩
  | some _ =>
    let dbOps := match s.quizInstanceId with
      | some i => [DbOp.setInstanceEndTime i]
      | none => []
    ⟨emptySession, [Event.quizEnd s.userScores true], dbOps, true⟩

/-- **C2** `endRound` is idempotent: whatever a first invocation did
(including any durable failure mode), the state it leaves has no open
question, so any further invocation is a no-op — it changes nothing,
emits no broadcast, persists no row and reports no failure.  Hence two
close triggers produce exactly one persisted batch, one `round-end`
broadcast and one cumulative-score update per answering identity. -/
theorem endRound_idempotent (df df' : Option ℕ) (s : Session) :
    endRound df' (endRound df s).state = ⟨(endRound df s).state, [], [], false⟩ := by
  rcases hq : s.quizId with _ | qz <;> rcases hc : s.currentQuestion with _ | r <;>
    simp [endRound, hq, hc]

/-- Every row handed to the round-end transaction stores
`is_correct = (points > 0)`. -/
theorem endRoundLoop_rows_isCorrect (answers : List (ℕ × Answer)) (dbFail : Option ℕ)
    (instId : Option ℕ) (qz qid : ℕ) :
    ∀ (results : List RoundResult) (idx : ℕ) (scores : List (ℕ × Score)) (row : ResponseRow),
      row ∈ (endRoundLoop answers dbFail instId qz qid results idx scores).2.1 →
      row.isCorrect = decide (0 < row.score)
  | [], idx, scores, row => by
    intro h
    simp [endRoundLoop] at h
  | r :: rest, idx, scores, row => by
    intro h
    rcases hl : lookupKey answers r.userId with _ | a
    · simp only [endRoundLoop, hl] at h
      exact endRoundLoop_rows_isCorrect answers dbFail instId qz qid rest (idx + 1) scores row h
    · simp only [endRoundLoop, hl] at h
      by_cases hf : dbFail = some idx
      · simp [if_pos hf] at h
      · simp only [if_neg hf, List.mem_cons] at h
        rcases h with h | h
        · subst h; rfl
        · exact endRoundLoop_rows_isCorrect answers dbFail instId qz qid rest (idx + 1)
            (bumpScore scores r) row h

/-- A concrete session: the open round's only answer selects the correct
option 2 with a sub-millisecond response margin of 1/2, whose floored
point value is 0. -/
def sC10 : Session :=
  ⟨some 1, some 5, 1, [], some ⟨10, 2, 30, [(7, ⟨2, 1/2, "t", "d"⟩)], 1, 1⟩, true⟩

/-- **C10** Every response row persisted at round close stores
`is_correct = (points > 0)` rather than `(selected option = correct
option)`: in particular, on `sC10` the answer selects the correct option
yet is persisted with `is_correct = false` because its floored point
value is 0. -/
theorem response_isCorrect_iff_positive_points :
    (∀ (dbFail : Option ℕ) (s : Session) (row : ResponseRow),
        row ∈ (endRound dbFail s).rows → row.isCorrect = decide (0 < row.score))
    ∧ (endRound none sC10).rows = [⟨some 5, 1, 10, 7, 2, 500, 0, false⟩] := by
  constructor
  · intro dbFail s row h
    rcases hq : s.quizId with _ | qz <;> rcases hc : s.currentQuestion with _ | r <;>
      simp [endRound, hq, hc] at h
    exact endRoundLoop_rows_isCorrect r.answers dbFail s.quizInstanceId qz r.qid
      (calculateRoundResults r.answers r.correctOption) 0 s.userScores row h.2
  · norm_num [endRound, sC10, endRoundLoop, calculateRoundResults, roundEntries, pointsFor,
      voteCounts, voteBump, bumpScore, mkRow, lookupKey, setKey, List.insertionSort,
      List.orderedInsert, Rat.floor_def]
    decide

/-- Witness for C10: the theorem applied to the concrete persisted row of
`sC10`. -/
theorem response_isCorrect_iff_positive_points_witness :
    (⟨some 5, 1, 10, 7, 2, 500, 0, false⟩ : ResponseRow).isCorrect =
      decide (0 < (⟨some 5, 1, 10, 7, 2, 500, 0, false⟩ : ResponseRow).score) :=
  response_isCorrect_iff_positive_points.1 none sC10 _ (by
    rw [response_isCorrect_iff_positive_points.2]
    exact List.mem_singleton.mpr rfl)

/-- A concrete session whose open round has one correct answer worth 500
points. -/
def sC6 : Session :=
  ⟨some 1, some 5, 1, [], some ⟨10, 2, 30, [(7, ⟨2, 500, "t", "d"⟩)], 1, 1⟩, true⟩

/-- **C6 counterexample** On `sC6`, when the single response insert fails the
emitted broadcasts are exactly those of a successful close — no
distinguishable degraded-close signal exists — while the persisted batch
is empty instead of the successful row: the claim that the error is
"reported as a distinguishable degraded-close signal rather than being
conflated with success" is false. -/
theorem endRound_failure_indistinguishable :
    (endRound (some 0) sC6).events = (endRound none sC6).events
    ∧ (endRound (some 0) sC6).rows = []
    ∧ (endRound none sC6).rows ≠ [] := by
  refine ⟨?_, ?_, ?_⟩ <;>
    norm_num [endRound, sC6, endRoundLoop, calculateRoundResults, roundEntries, pointsFor,
      voteCounts, voteBump, bumpScore, mkRow, lookupKey, setKey, List.insertionSort,
      List.orderedInsert, Rat.floor_def] <;> decide

/-- Discriminator for the `round-end` broadcast. -/
def isRoundEnd : Event → Bool
  | .roundEnd _ _ _ _ => true
  | _ => false

/-- **C6 (amended)** On round close, the response rows are persisted in one
all-or-nothing transaction: on any failure the whole batch is rolled back
(no row persists) and the round still closes in memory — the open
question is cleared, the timer is cleared, and the `round-end` broadcast
is emitted.  But the failure is only logged internally: the handler emits
exactly the same single `round-end` broadcast shape as a successful
close, with no degraded-close signal. -/
theorem endRound_failure_rolls_back_and_closes (k : ℕ) (s : Session)
    (hfail : (endRound (some k) s).failed = true) :
    (endRound (some k) s).rows = []
    ∧ (endRound (some k) s).state.currentQuestion = none
    ∧ (endRound (some k) s).state.timerArmed = false
    ∧ (endRound (some k) s).events.length = 1
    ∧ (endRound (some k) s).events.all isRoundEnd = true := by
  rcases hq : s.quizId with _ | qz <;> rcases hc : s.currentQuestion with _ | r <;>
    simp [endRound, hq, hc] at hfail
  have hf2 : (endRoundLoop r.answers (some k) s.quizInstanceId qz r.qid
      (calculateRoundResults r.answers r.correctOption) 0 s.userScores).2.2 = true := hfail
  refine ⟨?_, ?_, ?_, ?_, ?_⟩ <;> simp [endRound, hq, hc, hf2, isRoundEnd]

/-- Witness for the amended C6: on `sC6` with its insert failing, the batch
is rolled back and the round closes in memory with one `round-end`
broadcast. -/
theorem endRound_failure_rolls_back_and_closes_witness :
    (endRound (some 0) sC6).rows = []
    ∧ (endRound (some 0) sC6).state.currentQuestion = none
    ∧ (endRound (some 0) sC6).state.timerArmed = false
    ∧ (endRound (some 0) sC6).events.length = 1
    ∧ (endRound (some 0) sC6).events.all isRoundEnd = true :=
  endRound_failure_rolls_back_and_closes 0 sC6 (by
    norm_num [endRound, sC6, endRoundLoop, calculateRoundResults, roundEntries, pointsFor,
      voteCounts, voteBump, bumpScore, mkRow, lookupKey, setKey, List.insertionSort,
      List.orderedInsert, Rat.floor_def])

theorem lookupKey_setKey_self {α : Type} (l : List (ℕ × α)) (u : ℕ) (v : α) :
    lookupKey (setKey l u v) u = some v := by
  induction l with
  | nil => simp [setKey, lookupKey]
  | cons p rest ih =>
    obtain ⟨k, w⟩ := p
    by_cases hk : k = u
    · simp [setKey, hk, lookupKey]
    · simp [setKey, hk, lookupKey, ih]

theorem lookupKey_setKey_ne {α : Type} (l : List (ℕ × α)) (u u' : ℕ) (v : α) (h : u' ≠ u) :
    lookupKey (setKey l u v) u' = lookupKey l u' := by
  induction l with
  | nil => simp [setKey, lookupKey, Ne.symm h]
  | cons p rest ih =>
    obtain ⟨k, w⟩ := p
    by_cases hk : k = u
    · subst hk
      simp [setKey, lookupKey, Ne.symm h]
    · simp [setKey, hk, lookupKey, ih]

theorem lookupKey_eraseKey_ne {α : Type} (l : List (ℕ × α)) (u u' : ℕ) (h : u' ≠ u) :
    lookupKey (eraseKey l u) u' = lookupKey l u' := by
  induction l with
  | nil => simp [eraseKey, lookupKey]
  | cons p rest ih =>
    obtain ⟨k, w⟩ := p
    by_cases hk : k = u
    · subst hk
      simp [eraseKey, lookupKey, Ne.symm h]
    · simp [eraseKey, hk, lookupKey, ih]

theorem map_fst_setKey_of_mem {α : Type} (l : List (ℕ × α)) (u : ℕ) (v : α)
    (h : lookupKey l u ≠ none) : (setKey l u v).map Prod.fst = l.map Prod.fst := by
  induction l with
  | nil => simp [lookupKey] at h
  | cons p rest ih =>
    obtain ⟨k, w⟩ := p
    by_cases hk : k = u
    · simp [setKey, hk]
    · simp only [lookupKey, if_neg hk] at h
      simp [setKey, hk, ih h]

theorem lookupKey_eq_none_iff {α : Type} (l : List (ℕ × α)) (u : ℕ) :
    lookupKey l u = none ↔ u ∉ l.map Prod.fst := by
  induction l with
  | nil => simp [lookupKey]
  | cons p rest ih =>
    obtain ⟨k, w⟩ := p
    by_cases hk : k = u
    · simp [lookupKey, hk]
    · simp [lookupKey, hk, ih, Ne.symm hk]

theorem lookupKey_eraseKey_self {α : Type} (l : List (ℕ × α)) (u : ℕ)
    (h : (l.map Prod.fst).Nodup) : lookupKey (eraseKey l u) u = none := by
  induction l with
  | nil => simp [eraseKey, lookupKey]
  | cons p rest ih =>
    obtain ⟨k, w⟩ := p
    simp only [List.map_cons, List.nodup_cons] at h
    by_cases hk : k = u
    · subst hk
      simp only [eraseKey, if_pos rfl]
      exact (lookupKey_eq_none_iff rest k).mpr h.1
    · simp [eraseKey, hk, lookupKey, ih h.2]

theorem length_setKey_of_mem {α : Type} (l : List (ℕ × α)) (u : ℕ) (v : α)
    (h : lookupKey l u ≠ none) : (setKey l u v).length = l.length := by
  have := map_fst_setKey_of_mem l u v h
  calc (setKey l u v).length = ((setKey l u v).map Prod.fst).length := (List.length_map _ _).symm
    _ = (l.map Prod.fst).length := by rw [this]
    _ = l.length := List.length_map _ _

theorem length_eraseKey_of_mem {α : Type} (l : List (ℕ × α)) (u : ℕ)
    (h : lookupKey l u ≠ none) : (eraseKey l u).length = l.length - 1 := by
  induction l with
  | nil => simp [lookupKey] at h
  | cons p rest ih =>
    obtain ⟨k, w⟩ := p
    by_cases hk : k = u
    · simp [eraseKey, hk]
    · simp only [lookupKey, if_neg hk] at h
      have hrest : 1 ≤ rest.length := by
        cases rest with
        | nil => simp [lookupKey] at h
        | cons q t => simp
      simp only [eraseKey, if_neg hk, List.length_cons, ih h]
      omega

/-- The rejection conditions of the `submit-answer` handler, phrased over
the session state: no round open. -/
def noRoundOpen (s : Session) : Prop :=
  s.quizId = none ∨ s.currentQuestion = none

/-- The submission's question id differs from the open round's question. -/
def questionMismatch (s : Session) (qid : ℕ) : Prop :=
  ∃ r, s.currentQuestion = some r ∧ r.qid ≠ qid

/-- The submitting identity already has an answer recorded for this round. -/
def alreadyAnswered (s : Session) (uid : ℕ) : Prop :=
  ∃ r, s.currentQuestion = some r ∧ lookupKey r.answers uid ≠ none

/-- **C3** A submission is rejected as a silent no-op — state unchanged, no
event, no error — exactly when the response margin is zero, the selected
option is the no-answer sentinel, no round is open, the question id
mismatches, or the identity already answered; otherwise the answer is
recorded under the identity and the received-count is incremented by
one. -/
theorem submitAnswer_reject_iff (cp : Bool) (qid uid : ℕ) (opt : ℤ) (rt : ℚ)
    (tw dn : String) (s : Session) :
    ((submitAnswer cp qid uid opt rt tw dn s).accepted = false ↔
      rt = 0 ∨ opt = -1 ∨ noRoundOpen s ∨ questionMismatch s qid ∨ alreadyAnswered s uid)
    ∧ ((submitAnswer cp qid uid opt rt tw dn s).accepted = false →
        (submitAnswer cp qid uid opt rt tw dn s).state = s
        ∧ (submitAnswer cp qid uid opt rt tw dn s).events = [])
    ∧ ((submitAnswer cp qid uid opt rt tw dn s).accepted = true →
        ((submitAnswer cp qid uid opt rt tw dn s).state.currentQuestion.bind
            fun r => lookupKey r.answers uid) = some ⟨opt, rt, tw, dn⟩
        ∧ ((submitAnswer cp qid uid opt rt tw dn s).state.currentQuestion.map
            fun r => r.receivedAnswerCount) =
          (s.currentQuestion.map fun r => r.receivedAnswerCount + 1)) := by
  by_cases h0 : rt = 0 ∨ opt = -1
  · refine ⟨?_, ?_, ?_⟩
    · rcases h0 with h | h <;> simp [submitAnswer, h]
    · intro _
      rcases h0 with h | h <;> simp [submitAnswer, h]
    · intro hacc
      rcases h0 with h | h <;> simp [submitAnswer, h] at hacc
  · have hr0 : ¬rt = 0 := fun h => h0 (Or.inl h)
    have hopt : ¬opt = -1 := fun h => h0 (Or.inr h)
    rcases hq : s.quizId with _ | qz
    · refine ⟨?_, ?_, ?_⟩
      · simp [submitAnswer, hr0, hopt, hq, noRoundOpen, questionMismatch, alreadyAnswered]
      · intro _
        simp [submitAnswer, hr0, hopt, hq]
      · intro hacc
        simp [submitAnswer, hr0, hopt, hq] at hacc
    · rcases hc : s.currentQuestion with _ | r
      · refine ⟨?_, ?_, ?_⟩
        · simp [submitAnswer, hr0, hopt, hq, hc, noRoundOpen, questionMismatch, alreadyAnswered]
        · intro _
          simp [submitAnswer, hr0, hopt, hq, hc]
        · intro hacc
          simp [submitAnswer, hr0, hopt, hq, hc] at hacc
      · by_cases hqid : r.qid = qid
        · rcases hl : lookupKey r.answers uid with _ | a
          · refine ⟨?_, ?_, ?_⟩
            · simp [submitAnswer, hr0, hopt, hq, hc, hqid, hl, noRoundOpen, questionMismatch,
                alreadyAnswered]
            · intro hacc
              simp [submitAnswer, hr0, hopt, hq, hc, hqid, hl] at hacc
            · intro _
              simp [submitAnswer, hr0, hopt, hq, hc, hqid, hl, lookupKey_setKey_self]
          · refine ⟨?_, ?_, ?_⟩
            · simp [submitAnswer, hr0, hopt, hq, hc, hqid, hl, noRoundOpen, questionMismatch,
                alreadyAnswered]
            · intro _
              simp [submitAnswer, hr0, hopt, hq, hc, hqid, hl]
            · intro hacc
              simp [submitAnswer, hr0, hopt, hq, hc, hqid, hl] at hacc
        · refine ⟨?_, ?_, ?_⟩
          · simp only [submitAnswer, hq, hc]
            rw [if_neg h0, if_pos (by exact hqid ∘ Eq.symm ∘ Eq.symm)]
            constructor
            · intro _
              exact Or.inr (Or.inr (Or.inr (Or.inl ⟨r, hc, hqid⟩)))
            · intro _
              rfl
          · intro _
            simp only [submitAnswer, hq, hc]
            rw [if_neg h0, if_pos (by exact hqid ∘ Eq.symm ∘ Eq.symm)]
            exact ⟨rfl, rfl⟩
          · intro hacc
            simp only [submitAnswer, hq, hc] at hacc
            rw [if_neg h0, if_pos (by exact hqid ∘ Eq.symm ∘ Eq.symm)] at hacc
            exact absurd hacc (by simp)

/-- A concrete session with an open round awaiting its first answer. -/
def sC3 : Session :=
  ⟨some 1, some 5, 1, [], some ⟨10, 2, 30, [], 0, 1⟩, true⟩

/-- Witness for C3: a valid submission on `sC3` is accepted, recorded and
counted. -/
theorem submitAnswer_reject_iff_witness :
    ((submitAnswer true 10 7 2 700 "tw" "dn" sC3).state.currentQuestion.bind
        fun r => lookupKey r.answers 7) = some ⟨2, 700, "tw", "dn"⟩
    ∧ ((submitAnswer true 10 7 2 700 "tw" "dn" sC3).state.currentQuestion.map
        fun r => r.receivedAnswerCount) =
      (sC3.currentQuestion.map fun r => r.receivedAnswerCount + 1) :=
  (submitAnswer_reject_iff true 10 7 2 700 "tw" "dn" sC3).2.2 (by decide)

/-- **C9** If a merge runs while a round is open and both identities already
have an answer recorded, the in-memory merge replaces the authenticated
identity's answer with the anonymous identity's answer (its display name
refreshed to the authenticated one when available), removes the anonymous
entry so the answer map shrinks by one, and leaves the round's
received-answers count unchanged. -/
theorem merge_replaces_auth_answer (newDN : Option String) (anonId authId : ℕ) (s : Session)
    (r : Round) (aAns bAns : Answer)
    (hne : anonId ≠ authId)
    (hr : s.currentQuestion = some r)
    (hnodup : (r.answers.map Prod.fst).Nodup)
    (ha : lookupKey r.answers anonId = some aAns)
    (hb : lookupKey r.answers authId = some bAns) :
    ((mergeInMemoryData newDN anonId authId s).currentQuestion.bind
        fun q => lookupKey q.answers authId) =
      some { aAns with displayName := newDN.getD aAns.displayName }
    ∧ ((mergeInMemoryData newDN anonId authId s).currentQuestion.bind
        fun q => lookupKey q.answers anonId) = none
    ∧ ((mergeInMemoryData newDN anonId authId s).currentQuestion.map
        fun q => q.answers.length) = some (r.answers.length - 1)
    ∧ ((mergeInMemoryData newDN anonId authId s).currentQuestion.map
        fun q => q.receivedAnswerCount) = some r.receivedAnswerCount := by
  have hcq : (mergeInMemoryData newDN anonId authId s).currentQuestion =
      some { r with answers := eraseKey (setKey r.answers authId
        { aAns with displayName := newDN.getD aAns.displayName }) anonId } := by
    simp [mergeInMemoryData, hr, ha]
  have hbne : lookupKey r.answers authId ≠ none := by simp [hb]
  have hanon : lookupKey (setKey r.answers authId
      { aAns with displayName := newDN.getD aAns.displayName }) anonId ≠ none := by
    rw [lookupKey_setKey_ne _ _ _ _ hne]
    simp [ha]
  refine ⟨?_, ?_, ?_, ?_⟩
  · rw [hcq]
    simp only [Option.some_bind]
    rw [lookupKey_eraseKey_ne _ _ _ (Ne.symm hne), lookupKey_setKey_self]
  · rw [hcq]
    simp only [Option.some_bind]
    apply lookupKey_eraseKey_self
    rw [map_fst_setKey_of_mem _ _ _ hbne]
    exact hnodup
  · rw [hcq]
    simp only [Option.map_some']
    rw [length_eraseKey_of_mem _ _ hanon, length_setKey_of_mem _ _ _ hbne]
  · rw [hcq]
    rfl

/-- A concrete open round in which identity 1 (anonymous) and identity 2
(authenticated) both answered. -/
def rC9 : Round :=
  ⟨10, 2, 30, [(1, ⟨2, 300, "anon", "User 1"⟩), (2, ⟨1, 400, "auth", "Auth"⟩)], 2, 2⟩

/-- Session holding `rC9` as its open round. -/
def sC9 : Session :=
  ⟨some 1, some 5, 1, [], some rC9, true⟩

/-- Witness for C9: merging identity 1 into identity 2 on `sC9` replaces
identity 2's answer with identity 1's, shrinks the map to one entry, and
keeps the received count at 2. -/
theorem merge_replaces_auth_answer_witness :
    ((mergeInMemoryData (some "AuthName") 1 2 sC9).currentQuestion.bind
        fun q => lookupKey q.answers 2) = some ⟨2, 300, "anon", "AuthName"⟩
    ∧ ((mergeInMemoryData (some "AuthName") 1 2 sC9).currentQuestion.bind
        fun q => lookupKey q.answers 1) = none
    ∧ ((mergeInMemoryData (some "AuthName") 1 2 sC9).currentQuestion.map
        fun q => q.answers.length) = some 1
    ∧ ((mergeInMemoryData (some "AuthName") 1 2 sC9).currentQuestion.map
        fun q => q.receivedAnswerCount) = some 2 :=
  merge_replaces_auth_answer (some "AuthName") 1 2 sC9 rC9
    ⟨2, 300, "anon", "User 1"⟩ ⟨1, 400, "auth", "Auth"⟩
    (by decide) rfl (by decide) (by decide) (by decide)

/-- A concrete session in which the anonymous identity 1 holds cumulative
score 150 and no round is open. -/
def sC5 : Session :=
  ⟨some 1, some 5, 1, [(1, ⟨150, "anonTw", "User 1"⟩)], none, false⟩

/-- The allocator state in which number 1 is in use. -/
def alC5 : Alloc := ⟨{1}, 1⟩

/-- The anonymous socket session owning identity 1 and number 1. -/
def skC5 : SockSession := ⟨1, true, some 1⟩

/-- **C5 counterexample** On `sC5`, when the durable merge step fails, the
in-memory merge still proceeds (the anonymous score entry moves to the
authenticated identity), no error is surfaced, the anonymous number is
released and the socket session switches to the authenticated identity —
falsifying the claim that a durable failure stops the in-memory merge,
surfaces an error and keeps the anonymous identity active. -/
theorem mergeStep_failure_cex :
    (submitMergeStep true (some "Auth") 2 sC5 alC5 skC5).dbOps = []
    ∧ (submitMergeStep true (some "Auth") 2 sC5 alC5 skC5).errorSurfaced = false
    ∧ lookupKey (submitMergeStep true (some "Auth") 2 sC5 alC5 skC5).session.userScores 1 = none
    ∧ ((lookupKey (submitMergeStep true (some "Auth") 2 sC5 alC5 skC5).session.userScores 2).map
        fun sc => sc.score) = some 150
    ∧ (submitMergeStep true (some "Auth") 2 sC5 alC5 skC5).sock.isAnonymous = false
    ∧ (submitMergeStep true (some "Auth") 2 sC5 alC5 skC5).alloc.used = ∅ := by decide

/-- **C5 (amended)** If the durable merge step fails, the failure is rolled
back durably but swallowed: no error is surfaced, and the in-memory merge
proceeds exactly as on success — the session scores, open-round answers,
allocator release and socket-session switch to the authenticated identity
are identical whether the durable step failed or succeeded — so the
anonymous identity is not kept active and no retry occurs. -/
theorem mergeStep_failure_proceeds_in_memory (newDN : Option String) (authId : ℕ)
    (s : Session) (al : Alloc) (sk : SockSession) :
    (submitMergeStep true newDN authId s al sk).session =
      (submitMergeStep false newDN authId s al sk).session
    ∧ (submitMergeStep true newDN authId s al sk).alloc =
      (submitMergeStep false newDN authId s al sk).alloc
    ∧ (submitMergeStep true newDN authId s al sk).sock =
      (submitMergeStep false newDN authId s al sk).sock
    ∧ (submitMergeStep true newDN authId s al sk).sock.isAnonymous = false
    ∧ (submitMergeStep true newDN authId s al sk).dbOps = []
    ∧ (submitMergeStep true newDN authId s al sk).errorSurfaced = false := by
  refine ⟨rfl, rfl, rfl, rfl, ?_, rfl⟩
  by_cases h : sk.dbUserId = authId <;> simp [submitMergeStep, mergeUsers, h]

/-- A one-question quiz. -/
def qsC4 : List Question := [⟨10, 2, 30⟩]

/-- A session that has played its single question: `questionIndex = 1` is
past the end of `qsC4` and no round is open. -/
def sC4 : Session :=
  ⟨some 1, some 5, 1, [(7, ⟨700, "t", "d"⟩)], none, false⟩

/-- **C4 (code behaviour at the failing input)** Advancing `sC4` past the end
of `qsC4` emits the final-scores broadcast but performs no durable write
(the instance end time is never marked) and leaves the session unchanged,
so a second advance emits the final-scores broadcast again: finalization
is not once-only.  (No round is opened by either call, which is the part
of the claim the code does satisfy.) -/
theorem advance_past_end_refinalizes :
    (nextQuestionHandler qsC4 3 true sC4).events = [Event.showFinalResults sC4.userScores]
    ∧ (nextQuestionHandler qsC4 3 true sC4).dbOps = []
    ∧ (nextQuestionHandler qsC4 3 true sC4).state = sC4
    ∧ (nextQuestionHandler qsC4 3 true (nextQuestionHandler qsC4 3 true sC4).state).events =
        [Event.showFinalResults sC4.userScores]
    ∧ (nextQuestionHandler qsC4 3 true (nextQuestionHandler qsC4 3 true sC4).state).dbOps =
        [] := by
  decide

/-- The allocator invariant: the scan counter is positive and every positive
number below it is currently in use (so the scan never skips a free
number). -/
def allocInv (a : Alloc) : Prop :=
  1 ≤ a.next ∧ ∀ m, 1 ≤ m → m < a.next → m ∈ a.used

/-- Specification of the `while` scan: with enough fuel it returns the
least number not in the used set among those ≥ the start. -/
theorem findNext_spec (used : Finset ℕ) :
    ∀ (fuel n : ℕ), (used.filter (n ≤ ·)).card < fuel →
      findNextAvailableAnonymousNumber used fuel n ∉ used
      ∧ n ≤ findNextAvailableAnonymousNumber used fuel n
      ∧ ∀ m, n ≤ m → m < findNextAvailableAnonymousNumber used fuel n → m ∈ used
  | 0, n => by
    intro h
    exact absurd h (Nat.not_lt_zero _)
  | fuel + 1, n => by
    intro h
    by_cases hn : n ∈ used
    · rw [findNextAvailableAnonymousNumber, if_pos hn]
      have hmem : n ∈ used.filter (n ≤ ·) := Finset.mem_filter.mpr ⟨hn, le_refl n⟩
      have hsub : used.filter ((n + 1) ≤ ·) ⊆ (used.filter (n ≤ ·)).erase n := by
        intro x hx
        rw [Finset.mem_filter] at hx
        rw [Finset.mem_erase, Finset.mem_filter]
        exact ⟨by omega, hx.1, by omega⟩
      have hcard : (used.filter ((n + 1) ≤ ·)).card < fuel := by
        have h1 := Finset.card_le_card hsub
        have h2 := Finset.card_erase_of_mem hmem
        have h3 : 0 < (used.filter (n ≤ ·)).card := Finset.card_pos.mpr ⟨n, hmem⟩
        omega
      obtain ⟨h1, h2, h3⟩ := findNext_spec used fuel (n + 1) hcard
      refine ⟨h1, by omega, fun m hm1 hm2 => ?_⟩
      rcases Nat.eq_or_lt_of_le hm1 with he | hl
      · exact he ▸ hn
      · exact h3 m hl hm2
    · rw [findNextAvailableAnonymousNumber, if_neg hn]
      exact ⟨hn, le_refl n, fun m hm1 hm2 => absurd (lt_of_le_of_lt hm1 hm2) (lt_irrefl n)⟩

/-- Under the invariant, `createAnonymousUser` allocates the smallest
positive number not currently in use. -/
theorem createAnonymousUser_least (a : Alloc) (hinv : allocInv a) :
    (createAnonymousUser a).1 ∉ a.used
    ∧ 1 ≤ (createAnonymousUser a).1
    ∧ ∀ m, 1 ≤ m → m < (createAnonymousUser a).1 → m ∈ a.used := by
  have hcard : (a.used.filter (a.next ≤ ·)).card < a.used.card + 1 :=
    lt_of_le_of_lt (Finset.card_filter_le _ _) (Nat.lt_succ_self _)
  obtain ⟨h1, h2, h3⟩ := findNext_spec a.used (a.used.card + 1) a.next hcard
  refine ⟨h1, le_trans hinv.1 h2, fun m hm1 hm2 => ?_⟩
  by_cases hmn : m < a.next
  · exact hinv.2 m hm1 hmn
  · exact h3 m (by omega) hm2

/-- The invariant holds in every reachable allocator state. -/
theorem allocInv_reachable : ∀ a, ReachableAlloc a → allocInv a := by
  intro a h
  induction h with
  | init =>
    exact ⟨le_refl 1, fun m hm1 hm2 => absurd (lt_of_le_of_lt hm1 hm2) (lt_irrefl 1)⟩
  | acquire hr ih =>
    obtain ⟨h1, h2, h3⟩ := createAnonymousUser_least _ ih
    refine ⟨h2, fun m hm1 hm2 => ?_⟩
    exact Finset.mem_insert.mpr (Or.inr (h3 m hm1 hm2))
  | release n hn hr ih =>
    refine ⟨le_min ih.1 hn, fun m hm1 hm2 => ?_⟩
    simp only [releaseNumber] at hm2 ⊢
    have hm3 : m < _ := lt_of_lt_of_le hm2 (min_le_left _ _)
    have hm4 : m < n := lt_of_lt_of_le hm2 (min_le_right _ _)
    exact Finset.mem_erase.mpr ⟨by omega, ih.2 m hm1 hm3⟩

/-- **C8** In every reachable allocator state, the first sight of a
never-seen anonymous key is assigned the smallest positive anonymous
number not currently in use, with display name `"User <n>"` derived from
it; and a number released by a disconnect or a merge leaves the used set,
so that a later first sight for which it is the smallest free number is
assigned exactly that number again. -/
theorem allocator_smallest_and_recycles (a : Alloc) (hreach : ReachableAlloc a) :
    ((createAnonymousUser a).1 ∉ a.used
      ∧ 1 ≤ (createAnonymousUser a).1
      ∧ ∀ m, 1 ≤ m → m < (createAnonymousUser a).1 → m ∈ a.used)
    ∧ anonDisplayName (createAnonymousUser a).1 = "User " ++ toString (createAnonymousUser a).1
    ∧ ∀ n, 1 ≤ n →
        n ∉ (releaseNumber a n).used
        ∧ ((∀ m, 1 ≤ m → m < n → m ∈ (releaseNumber a n).used) →
            (createAnonymousUser (releaseNumber a n)).1 = n) := by
  have hinv := allocInv_reachable a hreach
  refine ⟨createAnonymousUser_least a hinv, rfl, fun n hn =>
    ⟨Finset.not_mem_erase n a.used, fun hbelow => ?_⟩⟩
  have hinv' := allocInv_reachable _ (ReachableAlloc.release n hn hreach)
  obtain ⟨h1, h2, h3⟩ := createAnonymousUser_least _ hinv'
  by_contra hne
  rcases lt_or_gt_of_ne hne with hlt | hgt
  · exact h1 (hbelow _ h2 hlt)
  · exact Finset.not_mem_erase n a.used (h3 n hn hgt)

/-- Witness for C8: allocate 1, allocate 2, release 1; the next allocation
returns the recycled number 1. -/
theorem allocator_smallest_and_recycles_witness :
    (createAnonymousUser
      (releaseNumber (createAnonymousUser (createAnonymousUser ⟨∅, 1⟩).2).2 1)).1 = 1 := by
  have h := allocator_smallest_and_recycles (createAnonymousUser (createAnonymousUser ⟨∅, 1⟩).2).2
    (ReachableAlloc.acquire (ReachableAlloc.acquire ReachableAlloc.init))
  exact (h.2.2 1 (by decide)).2
    (fun m hm1 hm2 => absurd (lt_of_le_of_lt hm1 hm2) (lt_irrefl 1))
